import Mathlib

/-!
Verification of the support-system core logic of the AI-powered support
repository: the document-tagging category cascade of the admin documents
page, the upload validation guard, the ticket lifecycle operations
(rate, post message, reopen), and the response-count display of the
admin support list.

Definitions are shallow embeddings of the TypeScript source. Operations
whose deciding code lives in the backend service (absent from this
repository snapshot) are modelled from the specification and marked as
such in their doc comments.
-/

namespace Support

/-! ### Category cascade data (admin documents page) -/

/-- The fixed course-category to course-names configuration table from the
admin documents page. -/
def courseCategories : List (String × List String) := [
  ("Management", [
    "Product Management with Generative & Agentic AI",
    "Certification Program in Business Analytics with Gen & Agentic AI",
    "Product Management and Agentic AI",
    "Advanced Project Management & Strategic Leadership",
    "Entrepreneurship Launchpad",
    "Certificate Program in Entrepreneurship and Start Up Mastery",
    "Certificate program in Smart Supply Chain Management",
    "Entrepreneurship & Leadership Toolkit Program",
    "Business Analytics"]),
  ("AI/ML", [
    "Minor in AI",
    "Artificial Intelligence and Machine Learning",
    "Specialized Program in Artificial Intelligence & Machine Learning with Drone Tech",
    "Credit-Linked program in Artificial Intelligence & Machine Learning"]),
  ("Data Science", [
    "Credit-Linked Program in Data Science",
    "Minor in Artificial Intelligence & Data Science",
    "Data Science"]),
  ("Marketing", [
    "Digital Marketing with Applied AI",
    "HR Analytics with Gen AI for HR Professionals",
    "Digital Marketing",
    "Digital Marketing & Analytics",
    "Gen AI Product Launchpad"]),
  ("Software Development", [
    "Cyber Security and Ethical Hacking with applied AI",
    "New Age Software Engineering Program",
    "Credit-Linked program in CSE & AI",
    "IIT Mandi Cybersecurity",
    "Software development 2.0 with emerging tech",
    "Software Development"]),
  ("Electronics", [
    "Minor in Embedded Systems"])]

/-- Object-key lookup on the configuration table, mirroring the source
expression that indexes courseCategories by category name and falls back
to an empty list for an unknown key. -/
def coursesInCategory (c : String) : List String :=
  match courseCategories.find? (fun p => decide (p.1 = c)) with
  | some p => p.2
  | none => []

/-- First category of the table whose course list contains the given
course name, mirroring the for-loop with break in the course-name toggle
handler. -/
def parentCategoryOf (n : String) : Option String :=
  (courseCategories.find? (fun p => decide (n ∈ p.2))).map Prod.fst

/-- Insertion-order deduplication used by the category toggle handler:
the source spreads a JS Set built from the concatenated list, which keeps
the first occurrence of each element. -/
def setDedup (l : List String) : List String :=
  dedupGo l []
where
  /-- Worker: keeps elements not yet seen, in order. -/
  dedupGo : List String → List String → List String
  | [], _ => []
  | x :: xs, seen => if x ∈ seen then dedupGo xs seen else x :: dedupGo xs (x :: seen)

/-- The document-tagging selection state of the admin documents page:
the selectedCourseCategories and selectedCourseNames React state. -/
structure Selection where
  selectedCourseCategories : List String
  selectedCourseNames : List String
deriving Repr, DecidableEq

/-- The handleCourseCategoryToggle handler: toggles a course-category in
or out of the selection; newly selecting adds all its courses to the
selected course names (deduplicated), deselecting removes them all. -/
def handleCourseCategoryToggle (s : Selection) (c : String) : Selection :=
  let coursesInCat := coursesInCategory c
  if c ∈ s.selectedCourseCategories then
    { selectedCourseCategories := s.selectedCourseCategories.filter (fun x => decide (x ≠ c)),
      selectedCourseNames :=
        s.selectedCourseNames.filter (fun n => decide (n ∉ coursesInCat)) }
  else
    { selectedCourseCategories := s.selectedCourseCategories ++ [c],
      selectedCourseNames := setDedup (s.selectedCourseNames ++ coursesInCat) }

/-- The handleCourseNameToggle handler: toggles a single course name; on
deselection, if no other selected course remains in the parent category,
the parent category is deselected as well. -/
def handleCourseNameToggle (s : Selection) (n : String) : Selection :=
  let newNames :=
    if n ∈ s.selectedCourseNames then
      s.selectedCourseNames.filter (fun m => decide (m ≠ n))
    else
      s.selectedCourseNames ++ [n]
  if n ∈ s.selectedCourseNames then
    match parentCategoryOf n with
    | some parent =>
      if (coursesInCategory parent).any (fun cn => decide (cn ∈ newNames)) then
        { s with selectedCourseNames := newNames }
      else
        { selectedCourseCategories :=
            s.selectedCourseCategories.filter (fun cat => decide (cat ≠ parent)),
          selectedCourseNames := newNames }
    | none => { s with selectedCourseNames := newNames }
  else
    { s with selectedCourseNames := newNames }

/-- The availableCoursesForSelection derived value: all courses of the
currently selected course-categories, in selection order. -/
def availableCoursesForSelection (s : Selection) : List String :=
  s.selectedCourseCategories.flatMap coursesInCategory

/-- The cascade invariant: every selected course name has its parent
course-category selected. -/
def parentSelected (s : Selection) : Prop :=
  ∀ n ∈ s.selectedCourseNames, ∀ c, parentCategoryOf n = some c →
    c ∈ s.selectedCourseCategories

/-! ### Data facts about the fixed configuration table -/

/-- The category keys of the configuration table are distinct. -/
theorem courseCategories_keys_nodup : (courseCategories.map Prod.fst).Nodup := by
  decide

/-- The course lists of distinct categories are disjoint: no course name
appears under two categories. -/
theorem courseCategories_disjoint :
    courseCategories.Pairwise (fun p q => ∀ x ∈ p.2, x ∉ q.2) := by
  decide

/-- Disjointness of course lists is a symmetric relation on table rows. -/
theorem disjoint_symm :
    Symmetric (fun (p q : String × List String) => ∀ x ∈ p.2, x ∉ q.2) := by
  intro p q h x hxq hxp
  exact h x hxp hxq

/-- Key lookup recovers the course list of any row of the table. -/
theorem coursesInCategory_eq {p : String × List String}
    (hp : p ∈ courseCategories) : coursesInCategory p.1 = p.2 := by
  unfold coursesInCategory
  cases hf : courseCategories.find? (fun q => decide (q.1 = p.1)) with
  | none =>
    rw [List.find?_eq_none] at hf
    have := hf p hp
    simp at this
  | some q =>
    have hq1 : q.1 = p.1 := by simpa using List.find?_some hf
    have hqmem := List.mem_of_find?_eq_some hf
    have hqp : q = p :=
      List.inj_on_of_nodup_map courseCategories_keys_nodup hqmem hp hq1
    rw [hqp]

/-- Characterization of the parent lookup: a course name has parent c
exactly when it occurs in the course list stored under key c. -/
theorem parentCategoryOf_eq_some_iff {n c : String} :
    parentCategoryOf n = some c ↔ n ∈ coursesInCategory c := by
  constructor
  · intro h
    unfold parentCategoryOf at h
    cases hf : courseCategories.find? (fun p => decide (n ∈ p.2)) with
    | none => rw [hf] at h; exact absurd h (by simp)
    | some p =>
      rw [hf] at h
      have hc : p.1 = c := by simpa using h
      have hmem := List.mem_of_find?_eq_some hf
      have hn : n ∈ p.2 := by simpa using List.find?_some hf
      rw [← hc, coursesInCategory_eq hmem]
      exact hn
  · intro h
    unfold coursesInCategory at h
    cases hf : courseCategories.find? (fun q => decide (q.1 = c)) with
    | none => rw [hf] at h; simp at h
    | some q =>
      rw [hf] at h
      have hqc : q.1 = c := by simpa using List.find?_some hf
      have hqmem := List.mem_of_find?_eq_some hf
      unfold parentCategoryOf
      cases hg : courseCategories.find? (fun p => decide (n ∈ p.2)) with
      | none =>
        rw [List.find?_eq_none] at hg
        have := hg q hqmem
        simp at this
        exact absurd h this
      | some r =>
        have hrmem := List.mem_of_find?_eq_some hg
        have hnr : n ∈ r.2 := by simpa using List.find?_some hg
        have hrq : r = q := by
          by_contra hne
          have hdisj :=
            (courseCategories_disjoint.forall disjoint_symm) hrmem hqmem hne
          exact hdisj n hnr h
        simp [hrq, hqc]

/-- Membership in the dedup worker: an element survives exactly when it
occurs in the input and was not already seen. -/
theorem mem_dedupGo {a : String} :
    ∀ (l seen : List String),
      a ∈ setDedup.dedupGo l seen ↔ a ∈ l ∧ a ∉ seen := by
  intro l
  induction l with
  | nil => intro seen; simp [setDedup.dedupGo]
  | cons x xs ih =>
    intro seen
    by_cases hx : x ∈ seen
    · rw [setDedup.dedupGo, if_pos hx, ih]
      simp only [List.mem_cons]
      by_cases hax : a = x
      · subst hax; simp [hx]
      · simp [hax]
    · rw [setDedup.dedupGo, if_neg hx]
      simp only [List.mem_cons, ih]
      by_cases hax : a = x
      · subst hax; simp [hx]
      · simp [hax]

/-- Membership is preserved by the Set-spread deduplication. -/
theorem mem_setDedup {a : String} {l : List String} :
    a ∈ setDedup l ↔ a ∈ l := by
  rw [setDedup, mem_dedupGo]
  simp

/-- Running the dedup worker on a duplicate-free block followed by a tail
reproduces the block and appends only elements of the tail. -/
theorem dedupGo_append_decomp :
    ∀ (names cs seen : List String), names.Nodup →
      (∀ x ∈ names, x ∉ seen) →
      ∃ t, setDedup.dedupGo (names ++ cs) seen = names ++ t ∧
        ∀ x ∈ t, x ∈ cs := by
  intro names
  induction names with
  | nil =>
    intro cs seen _ _
    exact ⟨setDedup.dedupGo cs seen, rfl, fun x hx => ((mem_dedupGo cs seen).mp hx).1⟩
  | cons a rest ih =>
    intro cs seen hnd hdisj
    have ha : a ∉ seen := hdisj a (List.mem_cons_self a rest)
    rw [List.cons_append, setDedup.dedupGo, if_neg ha]
    have hrest : ∀ x ∈ rest, x ∉ a :: seen := by
      intro x hx hc
      rcases List.mem_cons.mp hc with rfl | hc
      · exact (List.nodup_cons.mp hnd).1 hx
      · exact hdisj x (List.mem_cons_of_mem a hx) hc
    obtain ⟨t, ht, hts⟩ := ih cs (a :: seen) (List.nodup_cons.mp hnd).2 hrest
    exact ⟨t, by rw [ht, List.cons_append], hts⟩

/-! ### Claims about the category cascade -/

/-- Claim C3: on every selection state in which each selected course name
has its parent category selected, the invariant is preserved by toggling
any course-category, and by toggling any course name drawn from the
courses available under the currently selected categories. -/
theorem parentSelected_preserved_by_toggles (s : Selection)
    (hs : parentSelected s) :
    (∀ c, parentSelected (handleCourseCategoryToggle s c)) ∧
    (∀ n, n ∈ availableCoursesForSelection s →
      parentSelected (handleCourseNameToggle s n)) := by
  constructor
  · intro c
    unfold handleCourseCategoryToggle
    by_cases hc : c ∈ s.selectedCourseCategories
    · rw [if_pos hc]
      intro n hn c2 hp
      simp only [List.mem_filter, decide_eq_true_eq] at hn
      simp only [List.mem_filter, decide_eq_true_eq]
      refine ⟨hs n hn.1 c2 hp, fun hcc => ?_⟩
      exact hn.2 (hcc ▸ parentCategoryOf_eq_some_iff.mp hp)
    · rw [if_neg hc]
      intro n hn c2 hp
      simp only [List.mem_append, List.mem_singleton]
      rcases List.mem_append.mp (mem_setDedup.mp hn) with h | h
      · exact Or.inl (hs n h c2 hp)
      · have : parentCategoryOf n = some c := parentCategoryOf_eq_some_iff.mpr h
        rw [this] at hp
        exact Or.inr (Option.some.inj hp).symm
  · intro n hav
    obtain ⟨c0, hc0, hnc0⟩ := List.mem_flatMap.mp hav
    have hp0 : parentCategoryOf n = some c0 := parentCategoryOf_eq_some_iff.mpr hnc0
    unfold handleCourseNameToggle
    by_cases hn : n ∈ s.selectedCourseNames
    · simp only [if_pos hn, hp0]
      by_cases hany : (coursesInCategory c0).any
          (fun cn => decide (cn ∈ s.selectedCourseNames.filter (fun m => decide (m ≠ n))))
      · rw [if_pos hany]
        intro m hm c2 hp
        simp only [List.mem_filter, decide_eq_true_eq] at hm
        exact hs m hm.1 c2 hp
      · rw [if_neg hany]
        intro m hm c2 hp
        simp only [List.mem_filter, decide_eq_true_eq] at hm
        simp only [List.mem_filter, decide_eq_true_eq]
        refine ⟨hs m hm.1 c2 hp, fun hc2 => ?_⟩
        apply hany
        rw [List.any_eq_true]
        refine ⟨m, ?_, ?_⟩
        · rw [← hc2]; exact parentCategoryOf_eq_some_iff.mp hp
        · simp only [decide_eq_true_eq, List.mem_filter]
          exact ⟨hm.1, by simpa using hm.2⟩
    · simp only [if_neg hn]
      intro m hm c2 hp
      rcases List.mem_append.mp hm with h | h
      · exact hs m h c2 hp
      · have hmn : m = n := List.mem_singleton.mp h
        rw [hmn, hp0] at hp
        exact (Option.some.inj hp) ▸ hc0

/-- Witness for claim C3 at the empty selection and the AI/ML category. -/
theorem parentSelected_preserved_by_toggles_witness :
    parentSelected (handleCourseCategoryToggle (Selection.mk [] []) "AI/ML") :=
  (parentSelected_preserved_by_toggles (Selection.mk [] [])
    (by intro n hn; simp at hn)).1 "AI/ML"

/-- Claim C4: newly selecting a course-category adds all of its course
names to the selected names, newly deselecting it removes them all; and
from the empty selection, selecting AI/ML yields availableCourses of
size 4 and a selected-names set containing all 4 AI/ML courses. -/
theorem categoryToggle_adds_and_removes_all_courses (s : Selection) (c : String) :
    (c ∉ s.selectedCourseCategories →
      ∀ n ∈ coursesInCategory c,
        n ∈ (handleCourseCategoryToggle s c).selectedCourseNames) ∧
    (c ∈ s.selectedCourseCategories →
      ∀ n ∈ coursesInCategory c,
        n ∉ (handleCourseCategoryToggle s c).selectedCourseNames) ∧
    ((availableCoursesForSelection
        (handleCourseCategoryToggle (Selection.mk [] []) "AI/ML")).length = 4 ∧
      ∀ n ∈ coursesInCategory "AI/ML",
        n ∈ (handleCourseCategoryToggle (Selection.mk [] []) "AI/ML").selectedCourseNames) := by
  refine ⟨?_, ?_, by decide⟩
  · intro hc n hn
    unfold handleCourseCategoryToggle
    rw [if_neg hc]
    exact mem_setDedup.mpr (List.mem_append.mpr (Or.inr hn))
  · intro hc n hn
    unfold handleCourseCategoryToggle
    rw [if_pos hc]
    simp only [List.mem_filter, decide_eq_true_eq, not_and]
    intro _ hcon
    exact hcon hn

/-- Witness for claim C4: selecting AI/ML from the empty selection puts
the Minor in AI course into the selected names. -/
theorem categoryToggle_adds_and_removes_all_courses_witness :
    "Minor in AI" ∈ (handleCourseCategoryToggle (Selection.mk [] []) "AI/ML").selectedCourseNames :=
  (categoryToggle_adds_and_removes_all_courses (Selection.mk [] []) "AI/ML").1
    (by simp) "Minor in AI" (by decide)

/-- Claim C5: deselecting a selected course name removes its parent
category from the selected categories exactly when no other selected
course name of that category remains; otherwise the selected category
list is unchanged. -/
theorem courseDeselect_cascades_category (s : Selection) (n p : String)
    (hn : n ∈ s.selectedCourseNames) (hp : parentCategoryOf n = some p) :
    ((∀ m ∈ coursesInCategory p, m ∈ s.selectedCourseNames → m = n) →
      (handleCourseNameToggle s n).selectedCourseCategories =
        s.selectedCourseCategories.filter (fun c => decide (c ≠ p)) ∧
      p ∉ (handleCourseNameToggle s n).selectedCourseCategories) ∧
    ((∃ m, m ∈ coursesInCategory p ∧ m ∈ s.selectedCourseNames ∧ m ≠ n) →
      (handleCourseNameToggle s n).selectedCourseCategories =
        s.selectedCourseCategories) := by
  have hres : handleCourseNameToggle s n =
      (if (coursesInCategory p).any
          (fun cn => decide (cn ∈ s.selectedCourseNames.filter (fun m => decide (m ≠ n)))) then
        { s with selectedCourseNames :=
            s.selectedCourseNames.filter (fun m => decide (m ≠ n)) }
      else
        { selectedCourseCategories :=
            s.selectedCourseCategories.filter (fun cat => decide (cat ≠ p)),
          selectedCourseNames :=
            s.selectedCourseNames.filter (fun m => decide (m ≠ n)) }) := by
    unfold handleCourseNameToggle
    simp only [if_pos hn, hp]
  constructor
  · intro hlast
    have hany : ¬ ((coursesInCategory p).any
        (fun cn => decide (cn ∈ s.selectedCourseNames.filter (fun m => decide (m ≠ n)))) = true) := by
      rw [List.any_eq_true]
      rintro ⟨m, hm, hmem⟩
      simp only [decide_eq_true_eq, List.mem_filter, decide_eq_true_eq] at hmem
      exact hmem.2 (hlast m hm hmem.1)
    rw [hres, if_neg hany]
    refine ⟨rfl, fun hmem => ?_⟩
    simp only [List.mem_filter, decide_eq_true_eq] at hmem
    exact hmem.2 rfl
  · rintro ⟨m, hm, hmem, hmn⟩
    have hpred : decide (m ∈ s.selectedCourseNames.filter (fun m2 => decide (m2 ≠ n))) = true := by
      simp only [decide_eq_true_eq, List.mem_filter, decide_eq_true_eq]
      exact ⟨hmem, hmn⟩
    have hany : ((coursesInCategory p).any
        (fun cn => decide (cn ∈ s.selectedCourseNames.filter (fun m2 => decide (m2 ≠ n))))) = true := by
      rw [List.any_eq_true]
      exact ⟨m, hm, hpred⟩
    rw [hres, if_pos hany]

/-- Witness for claim C5: with only AI/ML selected and only Minor in AI
chosen, deselecting Minor in AI deselects AI/ML. -/
theorem courseDeselect_cascades_category_witness :
    "AI/ML" ∉ (handleCourseNameToggle
      (Selection.mk ["AI/ML"] ["Minor in AI"]) "Minor in AI").selectedCourseCategories :=
  ((courseDeselect_cascades_category (Selection.mk ["AI/ML"] ["Minor in AI"])
    "Minor in AI" "AI/ML" (by decide) (by decide)).1 (by decide)).2

/-- Claim C6: toggling a course name that is not currently selected only
appends it to the selected course names and leaves the selected course
categories untouched; no upward cascade to the parent category happens. -/
theorem courseSelect_leaves_categories_unchanged (s : Selection) (n : String)
    (h : n ∉ s.selectedCourseNames) :
    (handleCourseNameToggle s n).selectedCourseCategories =
      s.selectedCourseCategories ∧
    (handleCourseNameToggle s n).selectedCourseNames =
      s.selectedCourseNames ++ [n] := by
  have hres : handleCourseNameToggle s n =
      { s with selectedCourseNames := s.selectedCourseNames ++ [n] } := by
    unfold handleCourseNameToggle
    simp only [if_neg h]
  rw [hres]
  exact ⟨rfl, rfl⟩

/-- Witness for claim C6: selecting Minor in AI with nothing selected
leaves the category list empty. -/
theorem courseSelect_leaves_categories_unchanged_witness :
    (handleCourseNameToggle (Selection.mk [] []) "Minor in AI").selectedCourseCategories
      = ([] : List String) :=
  (courseSelect_leaves_categories_unchanged (Selection.mk [] []) "Minor in AI"
    (by simp)).1

/-- Claim C10: on a state satisfying the parent-category invariant where
a category is not selected, toggling that category twice restores the
selected categories exactly, restores the selected course names as a set,
and restores them exactly when they are duplicate-free (as all reachable
states are). -/
theorem categoryToggle_roundTrip_identity (s : Selection) (c : String)
    (hs : parentSelected s) (hc : c ∉ s.selectedCourseCategories) :
    (handleCourseCategoryToggle (handleCourseCategoryToggle s c) c).selectedCourseCategories
      = s.selectedCourseCategories ∧
    (∀ x, x ∈ (handleCourseCategoryToggle (handleCourseCategoryToggle s c) c).selectedCourseNames
      ↔ x ∈ s.selectedCourseNames) ∧
    (s.selectedCourseNames.Nodup →
      (handleCourseCategoryToggle (handleCourseCategoryToggle s c) c).selectedCourseNames
        = s.selectedCourseNames) := by
  have hdisj : ∀ x ∈ s.selectedCourseNames, x ∉ coursesInCategory c := by
    intro x hx hxc
    exact hc (hs x hx c (parentCategoryOf_eq_some_iff.mpr hxc))
  have h1 : handleCourseCategoryToggle s c =
      Selection.mk (s.selectedCourseCategories ++ [c])
        (setDedup (s.selectedCourseNames ++ coursesInCategory c)) := by
    unfold handleCourseCategoryToggle
    rw [if_neg hc]
  have hcmem : c ∈ s.selectedCourseCategories ++ [c] :=
    List.mem_append.mpr (Or.inr (List.mem_singleton.mpr rfl))
  have h2 : handleCourseCategoryToggle (handleCourseCategoryToggle s c) c =
      Selection.mk
        ((s.selectedCourseCategories ++ [c]).filter (fun x => decide (x ≠ c)))
        ((setDedup (s.selectedCourseNames ++ coursesInCategory c)).filter
          (fun n => decide (n ∉ coursesInCategory c))) := by
    rw [h1]
    unfold handleCourseCategoryToggle
    rw [if_pos hcmem]
  rw [h2]
  refine ⟨?_, ?_, ?_⟩
  · simp only [List.filter_append]
    have hl : s.selectedCourseCategories.filter (fun x => decide (x ≠ c))
        = s.selectedCourseCategories := by
      rw [List.filter_eq_self]
      intro x hx
      simp only [decide_eq_true_eq]
      exact fun hxc => hc (hxc ▸ hx)
    have hr : ([c].filter (fun x => decide (x ≠ c))) = ([] : List String) := by simp
    rw [hl, hr, List.append_nil]
  · intro x
    simp only [List.mem_filter, decide_eq_true_eq, mem_setDedup, List.mem_append]
    constructor
    · rintro ⟨h | h, hnc⟩
      · exact h
      · exact absurd h hnc
    · intro hx
      exact ⟨Or.inl hx, hdisj x hx⟩
  · intro hnd
    obtain ⟨t, ht, hts⟩ := dedupGo_append_decomp s.selectedCourseNames
      (coursesInCategory c) [] hnd (by simp)
    have hsd : setDedup (s.selectedCourseNames ++ coursesInCategory c)
        = s.selectedCourseNames ++ t := by
      rw [setDedup]; exact ht
    have hl : s.selectedCourseNames.filter (fun n => decide (n ∉ coursesInCategory c))
        = s.selectedCourseNames := by
      rw [List.filter_eq_self]
      intro x hx
      simp only [decide_eq_true_eq]
      exact hdisj x hx
    have hr : t.filter (fun n => decide (n ∉ coursesInCategory c)) = [] := by
      rw [List.filter_eq_nil_iff]
      intro x hx
      simp only [decide_eq_true_eq, not_not]
      exact hts x hx
    simp only [hsd, List.filter_append, hl, hr, List.append_nil]

/-- Witness for claim C10: double-toggling AI/ML from the empty selection
returns the empty category list. -/
theorem categoryToggle_roundTrip_identity_witness :
    (handleCourseCategoryToggle
      (handleCourseCategoryToggle (Selection.mk [] []) "AI/ML") "AI/ML").selectedCourseCategories
      = (Selection.mk [] []).selectedCourseCategories :=
  (categoryToggle_roundTrip_identity (Selection.mk [] []) "AI/ML"
    (by intro n hn; simp at hn) (by simp)).1

/-! ### Document upload validation (admin documents page) -/

/-- The form state consulted by the handleUpload handler: whether a file
is attached, the single top-level category of the select control, and the
two cascade selections. -/
structure UploadForm where
  hasFile : Bool
  selectedCategory : String
  selectedCourseCategories : List String
  selectedCourseNames : List String
deriving Repr, DecidableEq

/-- Outcome of submitting the upload form: either the handler sets a
validation error message and returns without issuing a request, or it
fires the upload request with the listed tag payload. -/
inductive UploadAction where
  | rejectValidation
  | sendRequest (categories : List String) (course_categories : List String)
      (course_names : List String)
deriving Repr, DecidableEq

/-- The handleUpload handler of the admin documents page: it rejects the
submission when no file is attached, no top-level category is chosen, or
no course-category is selected; otherwise it sends the upload request,
wrapping the single top-level category in a one-element list. -/
def handleUpload (f : UploadForm) : UploadAction :=
  if ¬ f.hasFile ∨ f.selectedCategory = "" ∨ f.selectedCourseCategories.length = 0 then
    UploadAction.rejectValidation
  else
    UploadAction.sendRequest [f.selectedCategory] f.selectedCourseCategories
      f.selectedCourseNames

/-- Claim C8: the upload proceeds only when exactly one top-level
category is chosen and the selected course-categories are non-empty;
when either condition fails the submission is rejected with a validation
error and no request is sent. -/
theorem upload_requires_topCategory_and_courseCategories (f : UploadForm) :
    ((f.selectedCategory = "" ∨ f.selectedCourseCategories = []) →
      handleUpload f = UploadAction.rejectValidation) ∧
    (∀ cats ccats cnames, handleUpload f = UploadAction.sendRequest cats ccats cnames →
      cats = [f.selectedCategory] ∧ cats.length = 1 ∧
      f.selectedCategory ≠ "" ∧ f.selectedCourseCategories ≠ []) := by
  constructor
  · intro h
    unfold handleUpload
    rw [if_pos]
    rcases h with h | h
    · exact Or.inr (Or.inl h)
    · exact Or.inr (Or.inr (by rw [h]; rfl))
  · intro cats ccats cnames hreq
    unfold handleUpload at hreq
    by_cases hcond : ¬ f.hasFile ∨ f.selectedCategory = "" ∨ f.selectedCourseCategories.length = 0
    · rw [if_pos hcond] at hreq
      exact absurd hreq (by simp)
    · rw [if_neg hcond] at hreq
      push_neg at hcond
      obtain ⟨cats_eq, _, _⟩ := UploadAction.sendRequest.inj hreq
      refine ⟨cats_eq.symm, by rw [← cats_eq]; rfl, hcond.2.1, ?_⟩
      intro hempty
      exact hcond.2.2 (by rw [hempty]; rfl)

/-- Witness for claim C8: a form with a file but no course-category
selected is rejected. -/
theorem upload_requires_topCategory_and_courseCategories_witness :
    handleUpload (UploadForm.mk true "qa_documents" [] []) = UploadAction.rejectValidation :=
  (upload_requires_topCategory_and_courseCategories
    (UploadForm.mk true "qa_documents" [] [])).1 (Or.inr rfl)

/-! ### Ticket lifecycle model -/

/-- The six ticket statuses of the frontend type definitions. -/
inductive TicketStatus where
  | Open
  | WorkInProgress
  | StudentActionRequired
  | AdminActionRequired
  | Resolved
  | Closed
deriving Repr, DecidableEq

/-- Message sender roles from the frontend type definitions. -/
inductive SenderRole where
  | student
  | admin
  | agent
deriving Repr, DecidableEq

/-- A conversation message, following the Message interface of the
frontend types: optional sender identity, body text, and an optional
confidence score present only for agent-authored messages. -/
structure Message where
  id : String
  ticket_id : String
  sender_role : SenderRole
  sender_email : Option String
  message : String
  confidence_score : Option Rat
  timestamp : String
deriving Repr, DecidableEq

/-- Error taxonomy of the support core as given by the specification. -/
inductive SupportError where
  | ValidationError
  | InvalidStateError
  | NotFoundError
  | DependencyError
deriving Repr, DecidableEq

/-- A ticket together with its owned conversation, following the
TicketDetail interface of the frontend types paired with the ordered
conversation list the detail endpoint returns alongside it. -/
structure Ticket where
  id : String
  user_id : String
  category : String
  title : String
  status : TicketStatus
  rating : Option Int
  conversation : List Message
deriving Repr, DecidableEq

/-- Modelled from the spec: the backend rate operation of the Ticket
Lifecycle Manager is not part of this repository snapshot (the frontend
only posts the chosen rating to it). Per the specification, the rating
must be an integer 1 to 5, rejected with ValidationError outside that
range, and rating is allowed only when the status is Resolved, rejected
with InvalidStateError otherwise; re-rating overwrites the stored value. -/
def rate (t : Ticket) (rating : Int) : Except SupportError Ticket :=
  if rating < 1 ∨ 5 < rating then
    Except.error SupportError.ValidationError
  else if t.status = TicketStatus.Resolved then
    Except.ok { t with rating := some rating }
  else
    Except.error SupportError.InvalidStateError

/-- Modelled from the spec: the backend postMessage operation of the
Ticket Lifecycle Manager is not part of this repository snapshot (the
frontend pages only gate the composer and post the message body). Per the
specification, posting is rejected with InvalidStateError when the ticket
status is Resolved or Closed; otherwise the message is appended to the
conversation. -/
def postMessage (t : Ticket) (m : Message) : Except SupportError Ticket :=
  if t.status = TicketStatus.Resolved ∨ t.status = TicketStatus.Closed then
    Except.error SupportError.InvalidStateError
  else
    Except.ok { t with conversation := t.conversation ++ [m] }

/-- Caller context of a reopen request; the specification leaves the
target status policy-determined by whether a student or an admin reopens. -/
inductive ReopenCaller where
  | student
  | admin
deriving Repr, DecidableEq

/-- Modelled from the spec: the policy mapping each reopen caller context
to the actionable status the ticket transitions to. -/
def reopenTarget : ReopenCaller → TicketStatus
  | ReopenCaller.student => TicketStatus.Open
  | ReopenCaller.admin => TicketStatus.AdminActionRequired

/-- An actionable status in the sense of the reopen contract: Open or one
of the Action-Required statuses. -/
def actionableStatus : TicketStatus → Bool
  | TicketStatus.Open => true
  | TicketStatus.StudentActionRequired => true
  | TicketStatus.AdminActionRequired => true
  | _ => false

/-- Modelled from the spec: the backend reopen operation of the Ticket
Lifecycle Manager is not part of this repository snapshot (the frontend
only exposes a reopen button on resolved tickets and posts to the reopen
endpoint). Per the specification, reopen is allowed only when the status
is Resolved or Closed, moves the ticket to the caller-determined
actionable status, clears no history, and is rejected with
InvalidStateError otherwise. -/
def reopen (t : Ticket) (caller : ReopenCaller) : Except SupportError Ticket :=
  if t.status = TicketStatus.Resolved ∨ t.status = TicketStatus.Closed then
    Except.ok { t with status := reopenTarget caller }
  else
    Except.error SupportError.InvalidStateError

/-- A sample message used by the concrete lifecycle witnesses. -/
def sampleMessage : Message :=
  Message.mk "m1" "t1" SenderRole.student none "Cannot access Unit 3" none
    "2024-01-01T00:00:00"

/-- A sample resolved ticket used by the concrete lifecycle witnesses. -/
def sampleResolvedTicket : Ticket :=
  Ticket.mk "t1" "u1" "Course Query" "Cannot access Unit 3"
    TicketStatus.Resolved none [sampleMessage]

/-! ### Claims about the ticket lifecycle -/

/-- Claim C1: rating succeeds exactly when the ticket is Resolved and the
rating is an integer between 1 and 5; an out-of-range rating is rejected
with ValidationError, and an in-range rating on a non-Resolved ticket is
rejected with InvalidStateError. -/
theorem rate_ok_iff_resolved_and_in_range (t : Ticket) (r : Int) :
    ((∃ u, rate t r = Except.ok u) ↔
      (t.status = TicketStatus.Resolved ∧ 1 ≤ r ∧ r ≤ 5)) ∧
    (¬ (1 ≤ r ∧ r ≤ 5) → rate t r = Except.error SupportError.ValidationError) ∧
    ((1 ≤ r ∧ r ≤ 5) → t.status ≠ TicketStatus.Resolved →
      rate t r = Except.error SupportError.InvalidStateError) := by
  unfold rate
  by_cases h1 : r < 1 ∨ 5 < r
  · rw [if_pos h1]
    refine ⟨?_, fun _ => rfl, fun h2 => absurd h2 (by omega)⟩
    constructor
    · rintro ⟨u, hu⟩
      exact absurd hu (by simp)
    · rintro ⟨_, h2, h3⟩
      omega
  · rw [if_neg h1]
    have hrange : 1 ≤ r ∧ r ≤ 5 := by omega
    by_cases hst : t.status = TicketStatus.Resolved
    · rw [if_pos hst]
      refine ⟨?_, fun hc => absurd hrange hc, fun _ hne => absurd hst hne⟩
      constructor
      · intro _
        exact ⟨hst, hrange⟩
      · intro _
        exact ⟨{ t with rating := some r }, rfl⟩
    · rw [if_neg hst]
      refine ⟨?_, fun hc => absurd hrange hc, fun _ _ => rfl⟩
      constructor
      · rintro ⟨u, hu⟩
        exact absurd hu (by simp)
      · rintro ⟨hres, _⟩
        exact absurd hres hst

/-- Witness for claim C1: rating a resolved ticket with 4 succeeds. -/
theorem rate_ok_iff_resolved_and_in_range_witness :
    ∃ u, rate sampleResolvedTicket 4 = Except.ok u :=
  (rate_ok_iff_resolved_and_in_range sampleResolvedTicket 4).1.mpr
    ⟨rfl, by omega⟩

/-- Claim C2: posting a message to a ticket whose status is Resolved or
Closed is rejected with InvalidStateError; no message is appended. -/
theorem postMessage_rejected_when_terminal (t : Ticket) (m : Message)
    (h : t.status = TicketStatus.Resolved ∨ t.status = TicketStatus.Closed) :
    postMessage t m = Except.error SupportError.InvalidStateError := by
  unfold postMessage
  rw [if_pos h]

/-- Witness for claim C2: posting to the sample resolved ticket fails
with InvalidStateError. -/
theorem postMessage_rejected_when_terminal_witness :
    postMessage sampleResolvedTicket sampleMessage
      = Except.error SupportError.InvalidStateError :=
  postMessage_rejected_when_terminal sampleResolvedTicket sampleMessage
    (Or.inl rfl)

/-- Claim C7: reopening is permitted exactly when the status is Resolved
or Closed, in which case the ticket moves to an actionable status with
its conversation and rating untouched; any other status is rejected with
InvalidStateError. -/
theorem reopen_allowed_iff_resolved_or_closed (t : Ticket) (caller : ReopenCaller) :
    ((t.status = TicketStatus.Resolved ∨ t.status = TicketStatus.Closed) →
      reopen t caller = Except.ok { t with status := reopenTarget caller } ∧
      actionableStatus (reopenTarget caller) = true ∧
      ∀ u, reopen t caller = Except.ok u →
        u.conversation = t.conversation ∧ u.rating = t.rating) ∧
    (¬ (t.status = TicketStatus.Resolved ∨ t.status = TicketStatus.Closed) →
      reopen t caller = Except.error SupportError.InvalidStateError) := by
  constructor
  · intro h
    unfold reopen
    rw [if_pos h]
    refine ⟨rfl, by cases caller <;> rfl, ?_⟩
    intro u hu
    have : { t with status := reopenTarget caller } = u := by
      simpa using hu
    rw [← this]
    exact ⟨rfl, rfl⟩
  · intro h
    unfold reopen
    rw [if_neg h]

/-- Witness for claim C7: a student reopening the sample resolved ticket
gets it back in Open status. -/
theorem reopen_allowed_iff_resolved_or_closed_witness :
    reopen sampleResolvedTicket ReopenCaller.student
      = Except.ok { sampleResolvedTicket with status := reopenTarget ReopenCaller.student } :=
  ((reopen_allowed_iff_resolved_or_closed sampleResolvedTicket
    ReopenCaller.student).1 (Or.inl rfl)).1

/-! ### Response count in the admin support list -/

/-- A row of the support-ticket list view, following the Ticket interface
of the frontend types: the backend supplies response_count along with the
displayed metadata. -/
structure TicketListItem where
  id : String
  title : String
  status : TicketStatus
  assigned_to : Option String
  rating : Option Int
  response_count : Int
  created_at : String
  updated_at : Option String
deriving Repr, DecidableEq

/-- The response count rendered by the admin support list page, which
shows response_count minus one next to the message icon. -/
def displayedResponseCount (t : TicketListItem) : Int :=
  t.response_count - 1

/-- Modelled from the spec: the backend list endpoint that fills the
response_count field is not part of this repository snapshot. Per the
Conversation Store specification the count is computed from the full
ordered conversation of the ticket; the field carries the total number
of stored messages, whose first element is the originating student
message. -/
def responseCountField (conversation : List Message) : Int :=
  conversation.length

/-- Claim C9: for a list row of a ticket with a non-empty conversation,
the displayed response count equals the number of replies, that is, the
total number of messages minus the originating first message. -/
theorem displayed_response_count_eq_reply_count (t : TicketListItem)
    (conv : List Message) (hne : conv ≠ [])
    (hrc : t.response_count = responseCountField conv) :
    displayedResponseCount t = ((conv.drop 1).length : Int) := by
  unfold displayedResponseCount responseCountField at *
  rw [hrc]
  cases conv with
  | nil => exact absurd rfl hne
  | cons m rest =>
    simp only [List.length_cons, List.drop_succ_cons, List.drop_zero]
    omega

/-- Witness for claim C9: a two-message conversation displays one reply. -/
theorem displayed_response_count_eq_reply_count_witness :
    displayedResponseCount
      (TicketListItem.mk "t1" "Cannot access Unit 3" TicketStatus.Resolved none
        none (responseCountField [sampleMessage, sampleMessage]) "2024-01-01" none)
      = (([sampleMessage, sampleMessage].drop 1).length : Int) :=
  displayed_response_count_eq_reply_count
    (TicketListItem.mk "t1" "Cannot access Unit 3" TicketStatus.Resolved none
      none (responseCountField [sampleMessage, sampleMessage]) "2024-01-01" none)
    [sampleMessage, sampleMessage] (by simp) rfl

end Support
